import Mathlib

/-!
Verification of the `Sysutil` facade declared in
`src/include/OpenImageIO/sysutil.h`.

Strings are embedded as `List Char` (byte-for-byte text); stateful or
platform-dependent entry points take their platform inputs (the process
environment, the terminal probe result, the OS core count) as explicit
arguments. Functions whose bodies appear inline in the header are
translated from that source; functions the header only declares are
modelled from the specification, as marked in their doc comments.
-/

namespace Sysutil

/-- Modelled from the spec: the process environment, a partial map from
variable names to values. The implementation of `Sysutil::getenv` is not
in the tree; the header documents it at `sysutil.h` lines 66-70. -/
def EnvMap : Type := String → Option String

/-- Modelled from the spec: `Sysutil::getenv(name, defaultval)` returns the
value of the environment variable `name`, or `defaultval` (defaulting to the
empty string) when `name` is not in the environment. -/
def getenv (env : EnvMap) (name : String) (defaultval : String := "") : String :=
  (env name).getD defaultval

/-- Modelled from the spec: the process-wide crash-trace sink registration,
either disabled or enabled with a single destination string. The
implementation of `Sysutil::setup_crash_stacktrace` is not in the tree; the
header documents it at `sysutil.h` lines 125-132. -/
inductive CrashSink where
  | Disabled : CrashSink
  | Enabled : String → CrashSink
deriving DecidableEq

/-- Modelled from the spec: the registration state at process start. -/
def initialCrashSink : CrashSink := CrashSink.Disabled

/-- Modelled from the spec: `Sysutil::setup_crash_stacktrace(filename)` as a
transition on the registration state: an empty filename disables any
previously installed handler, any other filename becomes the single active
destination, replacing the previous one. -/
def setup_crash_stacktrace (s : CrashSink) (filename : String) : CrashSink :=
  if filename = "" then CrashSink.Disabled else CrashSink.Enabled filename

/-- Modelled from the spec: `Sysutil::hardware_concurrency()` reports the
OS logical core count; the count is a parameter of the model because the
implementation (a wrapper around the standard library accessor, per
`sysutil.h` lines 92-97) is not in the tree. -/
def hardware_concurrency (logicalCores : Nat) : Nat := logicalCores

/-- `Sysutil::physical_concurrency` (`sysutil.h` lines 108-112): the inline
body returns `hardware_concurrency()`. -/
def physical_concurrency (logicalCores : Nat) : Nat :=
  hardware_concurrency logicalCores

/-- Modelled from the spec: the terminal size probe, `none` when the process
is not attached to a terminal or the query is unavailable, otherwise the
measured (columns, rows) pair. -/
def TermProbe : Type := Option (Nat × Nat)

/-- Modelled from the spec: `Sysutil::terminal_columns()` (`sysutil.h`
lines 134-137) returns the probed column count, defaulting to 80 when the
probe fails. -/
def terminal_columns (probe : TermProbe) : Nat :=
  match probe with
  | some (cols, _) => cols
  | none => 80

/-- Modelled from the spec: `Sysutil::terminal_rows()` (`sysutil.h`
lines 139-142) returns the probed row count, defaulting to 24 when the
probe fails. -/
def terminal_rows (probe : TermProbe) : Nat :=
  match probe with
  | some (_, rows) => rows
  | none => 24

/-- `Sysutil::Term` (`sysutil.h` lines 147-184): a value object carrying the
single boolean `m_is_console`, whose default member initializer is `true`
(line 183). -/
structure Term where
  m_is_console : Bool := true
deriving DecidableEq

/-- `Sysutil::Term::Term()` (`sysutil.h` line 150): the default constructor
has an empty body, so the member keeps its default initializer. -/
def Term.mkDefault : Term := {}

/-- `Sysutil::Term::is_console` (`sysutil.h` line 180): returns the stored
boolean `m_is_console`. -/
def Term.is_console (t : Term) : Bool := t.m_is_console

/-- Modelled from the spec: split a command string at every comma, keeping
empty pieces, for the comma-separated style-token lists accepted by
`Sysutil::Term::ansi` (`sysutil.h` lines 158-166, implementation not in the
tree). -/
def splitCommas : List Char → List (List Char)
  | [] => [[]]
  | c :: rest =>
    match splitCommas rest with
    | [] => [[c]]
    | t :: ts => if c = ',' then [] :: t :: ts else (c :: t) :: ts

/-- Modelled from the spec: strip the spaces around a style token, since
whitespace around commas is tolerated. -/
def trimTok (tok : List Char) : List Char :=
  ((tok.dropWhile (· == ' ')).reverse.dropWhile (· == ' ')).reverse

/-- Modelled from the spec: the closed vocabulary of style tokens and the
SGR parameter each one selects; unknown tokens select nothing. -/
def sgr (tok : List Char) : Option (List Char) :=
  if tok = "default".toList then some "0".toList
  else if tok = "bold".toList then some "1".toList
  else if tok = "underscore".toList then some "4".toList
  else if tok = "blink".toList then some "5".toList
  else if tok = "reverse".toList then some "7".toList
  else if tok = "concealed".toList then some "8".toList
  else if tok = "black".toList then some "30".toList
  else if tok = "red".toList then some "31".toList
  else if tok = "green".toList then some "32".toList
  else if tok = "yellow".toList then some "33".toList
  else if tok = "blue".toList then some "34".toList
  else if tok = "magenta".toList then some "35".toList
  else if tok = "cyan".toList then some "36".toList
  else if tok = "white".toList then some "37".toList
  else if tok = "black_bg".toList then some "40".toList
  else if tok = "red_bg".toList then some "41".toList
  else if tok = "green_bg".toList then some "42".toList
  else if tok = "yellow_bg".toList then some "43".toList
  else if tok = "blue_bg".toList then some "44".toList
  else if tok = "magenta_bg".toList then some "45".toList
  else if tok = "cyan_bg".toList then some "46".toList
  else if tok = "white_bg".toList then some "47".toList
  else none

/-- Modelled from the spec: the SGR parameters selected by the recognized
tokens of a command string, in order. -/
def selectCodes (command : List Char) : List (List Char) :=
  (splitCommas command).filterMap (fun tok => sgr (trimTok tok))

/-- Modelled from the spec: `Sysutil::Term::ansi(command)` (`sysutil.h`
lines 158-166): the CSI escape sequence concatenating the selected SGR
parameters when the descriptor is a console, the empty string otherwise. -/
def Term.ansi (t : Term) (command : List Char) : List Char :=
  if t.m_is_console then
    '\x1b' :: '[' :: (List.intercalate [';'] (selectCodes command) ++ ['m'])
  else []

/-- `Sysutil::Term::ansi(command, text)` (`sysutil.h` lines 171-174): the
inline body returns `ansi(command)` then the text then `ansi("default")`. -/
def Term.ansi2 (t : Term) (command text : List Char) : List Char :=
  t.ansi command ++ text ++ t.ansi ("default".toList)

/-- Modelled from the spec: `Sysutil::Term::ansi_fgcolor(r, g, b)`
(`sysutil.h` line 177, implementation not in the tree): the 24-bit-color
SGR sequence `38;2;r;g;b` when the descriptor is a console, the empty
string otherwise. -/
def Term.ansi_fgcolor (t : Term) (r g b : Nat) : List Char :=
  if t.m_is_console then
    "\x1b[38;2;".toList ++ (Nat.repr r).toList ++ [';'] ++ (Nat.repr g).toList
      ++ [';'] ++ (Nat.repr b).toList ++ ['m']
  else []

/-- Modelled from the spec: `Sysutil::Term::ansi_bgcolor(r, g, b)`
(`sysutil.h` line 178, implementation not in the tree): the 24-bit-color
SGR sequence `48;2;r;g;b` when the descriptor is a console, the empty
string otherwise. -/
def Term.ansi_bgcolor (t : Term) (r g b : Nat) : List Char :=
  if t.m_is_console then
    "\x1b[48;2;".toList ++ (Nat.repr r).toList ++ [';'] ++ (Nat.repr g).toList
      ++ [';'] ++ (Nat.repr b).toList ++ ['m']
  else []

theorem splitCommas_ne_nil (l : List Char) : splitCommas l ≠ [] := by
  cases l with
  | nil => simp [splitCommas]
  | cons c rest =>
    simp only [splitCommas]
    cases splitCommas rest with
    | nil => simp
    | cons t ts => by_cases hc : c = ',' <;> simp [hc]

theorem splitCommas_comma_cons (c : List Char) :
    splitCommas (',' :: c) = [] :: splitCommas c := by
  simp only [splitCommas]
  cases h : splitCommas c with
  | nil => exact absurd h (splitCommas_ne_nil c)
  | cons t ts => simp

theorem splitCommas_append_comma (u c : List Char) (hu : ',' ∉ u) :
    splitCommas (u ++ ',' :: c) = u :: splitCommas c := by
  induction u with
  | nil => simpa using splitCommas_comma_cons c
  | cons a u ih =>
    have ha : a ≠ ',' := fun h => hu (h ▸ List.mem_cons_self a u)
    have hrec := ih (fun h => hu (List.mem_cons_of_mem a h))
    simp only [List.cons_append, splitCommas]
    rw [List.append_eq, hrec]
    simp [ha]

theorem trimTok_pad (u : List Char) :
    trimTok (' ' :: (u ++ [' '])) = trimTok u := by
  unfold trimTok
  rw [List.dropWhile_cons_of_pos (by rfl), List.dropWhile_append]
  by_cases h : (u.dropWhile (· == ' ')).isEmpty
  · rw [List.isEmpty_iff] at h
    simp [h, List.dropWhile]
  · simp [h, List.reverse_append, List.dropWhile_cons_of_pos]

end Sysutil

namespace Sysutil

/-- C1: if the environment does not contain `name`, `getenv(name, d)` returns
`d` byte-for-byte; if it contains `name` with value `v`, it returns `v`; with
the default argument omitted the default is the empty string. -/
theorem getenv_spec (env : EnvMap) (name d : String) :
    (env name = none → getenv env name d = d) ∧
    (∀ v, env name = some v → getenv env name d = v) ∧
    getenv env name = getenv env name "" := by
  refine ⟨fun h => ?_, fun v h => ?_, rfl⟩
  · simp [getenv, h]
  · simp [getenv, h]

/-- Concrete witness for C1: on an environment holding only
`PRESENT = hello`, lookup of an absent name yields the default and lookup of
the present name yields its value. -/
theorem getenv_spec_witness :
    getenv (fun n => if n = "PRESENT" then some "hello" else none)
        "ABSENT" "fallback" = "fallback" ∧
    getenv (fun n => if n = "PRESENT" then some "hello" else none)
        "PRESENT" "x" = "hello" := by
  constructor
  · exact (getenv_spec (fun n => if n = "PRESENT" then some "hello" else none)
      "ABSENT" "fallback").1 (by decide)
  · exact (getenv_spec (fun n => if n = "PRESENT" then some "hello" else none)
      "PRESENT" "x").2.1 "hello" (by decide)

/-- C2: the crash-trace sink is a two-state machine: the initial state is
Disabled; a non-empty filename moves any state to Enabled of that filename;
the empty filename moves any state to Disabled (in particular a no-op on
Disabled); the outcome depends only on the most recent call, so at most one
registration is active and repeating a call changes nothing. -/
theorem setup_crash_stacktrace_spec :
    initialCrashSink = CrashSink.Disabled ∧
    (∀ s f, f ≠ "" → setup_crash_stacktrace s f = CrashSink.Enabled f) ∧
    (∀ s, setup_crash_stacktrace s "" = CrashSink.Disabled) ∧
    (∀ s t f, setup_crash_stacktrace s f = setup_crash_stacktrace t f) ∧
    (∀ s x, setup_crash_stacktrace (setup_crash_stacktrace s x) x
        = setup_crash_stacktrace s x) := by
  refine ⟨rfl, fun s f hf => ?_, fun s => ?_, fun s t f => ?_, fun s x => ?_⟩
  · simp [setup_crash_stacktrace, hf]
  · simp [setup_crash_stacktrace]
  · simp [setup_crash_stacktrace]
  · simp [setup_crash_stacktrace]

/-- Concrete witness for C2: registering `crash.txt` from the initial state
enables it, a later empty registration disables it, and repeating the
`crash.txt` registration equals doing it once. -/
theorem setup_crash_stacktrace_spec_witness :
    setup_crash_stacktrace initialCrashSink "crash.txt"
        = CrashSink.Enabled "crash.txt" ∧
    setup_crash_stacktrace (CrashSink.Enabled "crash.txt") ""
        = CrashSink.Disabled ∧
    setup_crash_stacktrace
        (setup_crash_stacktrace initialCrashSink "crash.txt") "crash.txt"
        = setup_crash_stacktrace initialCrashSink "crash.txt" := by
  refine ⟨?_, ?_, ?_⟩
  · exact setup_crash_stacktrace_spec.2.1 initialCrashSink "crash.txt" (by decide)
  · exact setup_crash_stacktrace_spec.2.2.1 (CrashSink.Enabled "crash.txt")
  · exact setup_crash_stacktrace_spec.2.2.2.2 initialCrashSink "crash.txt"

/-- C6: the deprecated `physical_concurrency()` returns exactly the value of
`hardware_concurrency()` in every state: it is a pure forwarder. -/
theorem physical_concurrency_spec (logicalCores : Nat) :
    physical_concurrency logicalCores = hardware_concurrency logicalCores := rfl

/-- C7: a default-constructed `Term` has `is_console() = true`, and for every
`Term` value, `is_console()` returns the stored boolean, so repeated calls on
an unchanged value agree. -/
theorem term_is_console_spec :
    Term.mkDefault.is_console = true ∧
    (∀ t : Term, t.is_console = t.m_is_console) :=
  ⟨rfl, fun _ => rfl⟩

/-- C8: when the terminal probe fails, `terminal_columns()` returns exactly
80 and `terminal_rows()` returns exactly 24. -/
theorem terminal_fallback_spec :
    terminal_columns (none : TermProbe) = 80 ∧
    terminal_rows (none : TermProbe) = 24 :=
  ⟨rfl, rfl⟩

/-- C3: for every descriptor `t`, command `c` and text `s`, the two-argument
`ansi(c, s)` is the concatenation of the style prefix `ansi(c)`, the text
`s`, and the reset-to-default sequence `ansi("default")`. -/
theorem ansi2_concat_spec (t : Term) (c s : List Char) :
    t.ansi2 c s = t.ansi c ++ s ++ t.ansi ("default".toList) := rfl

/-- C4: on a non-console descriptor `ansi(c)` is the empty string for every
command; on a console descriptor it is the CSI sequence concatenating the
SGR parameters selected from `c`; a comma-separated token the vocabulary
does not recognize contributes nothing (the call never fails); and spaces
around the comma are tolerated. -/
theorem ansi_command_spec (t : Term) (c u : List Char) (hu : ',' ∉ u) :
    (t.is_console = false → t.ansi c = []) ∧
    (t.is_console = true →
      t.ansi c = '\x1b' :: '[' :: (List.intercalate [';'] (selectCodes c) ++ ['m'])) ∧
    (sgr (trimTok u) = none → t.ansi (u ++ ',' :: c) = t.ansi c) ∧
    t.ansi ((' ' :: (u ++ [' '])) ++ ',' :: c) = t.ansi (u ++ ',' :: c) := by
  have hpad : ',' ∉ (' ' :: (u ++ [' '])) := by
    simp only [List.mem_cons, List.mem_append, List.mem_singleton]
    push_neg
    exact ⟨by decide, hu, by decide⟩
  refine ⟨fun h => ?_, fun h => ?_, fun h => ?_, ?_⟩
  · have hm : t.m_is_console = false := h
    simp [Term.ansi, hm]
  · have hm : t.m_is_console = true := h
    simp [Term.ansi, hm]
  · have hsel : selectCodes (u ++ ',' :: c) = selectCodes c := by
      unfold selectCodes
      rw [splitCommas_append_comma u c hu]
      simp [List.filterMap_cons, h]
    simp only [Term.ansi]
    rw [hsel]
  · have hsel : selectCodes ((' ' :: (u ++ [' '])) ++ ',' :: c)
        = selectCodes (u ++ ',' :: c) := by
      unfold selectCodes
      rw [splitCommas_append_comma _ c hpad, splitCommas_append_comma u c hu]
      simp [List.filterMap_cons, trimTok_pad]
    simp only [Term.ansi]
    rw [hsel]

/-- Concrete witness for C4: a non-console descriptor yields the empty
string, an unrecognized leading token `frobnicate` contributes nothing, and
spaces around the comma do not change the result. -/
theorem ansi_command_spec_witness :
    (Term.mk false).ansi ("bold".toList) = [] ∧
    (Term.mk true).ansi ("frobnicate".toList ++ ',' :: "bold".toList)
      = (Term.mk true).ansi ("bold".toList) ∧
    (Term.mk true).ansi ((' ' :: ("frobnicate".toList ++ [' '])) ++ ',' :: "bold".toList)
      = (Term.mk true).ansi ("frobnicate".toList ++ ',' :: "bold".toList) :=
  ⟨(ansi_command_spec (Term.mk false) ("bold".toList) ("frobnicate".toList)
      (by decide)).1 rfl,
   (ansi_command_spec (Term.mk true) ("bold".toList) ("frobnicate".toList)
      (by decide)).2.2.1 (by decide),
   (ansi_command_spec (Term.mk true) ("bold".toList) ("frobnicate".toList)
      (by decide)).2.2.2⟩

/-- C5: for channels in [0, 255], on a console descriptor `ansi_fgcolor`
yields `ESC [ 38 ; 2 ; r ; g ; b m` and `ansi_bgcolor` the analogous
`48;2;r;g;b` sequence; on a non-console descriptor both are empty. -/
theorem ansi_color_spec (t : Term) (r g b : Nat)
    (hr : r ≤ 255) (hg : g ≤ 255) (hb : b ≤ 255) :
    (t.is_console = true →
      t.ansi_fgcolor r g b
        = "\x1b[38;2;".toList ++ (Nat.repr r).toList ++ [';'] ++ (Nat.repr g).toList
          ++ [';'] ++ (Nat.repr b).toList ++ ['m'] ∧
      t.ansi_bgcolor r g b
        = "\x1b[48;2;".toList ++ (Nat.repr r).toList ++ [';'] ++ (Nat.repr g).toList
          ++ [';'] ++ (Nat.repr b).toList ++ ['m']) ∧
    (t.is_console = false →
      t.ansi_fgcolor r g b = [] ∧ t.ansi_bgcolor r g b = []) := by
  constructor
  · intro h
    have hm : t.m_is_console = true := h
    constructor <;> simp [Term.ansi_fgcolor, Term.ansi_bgcolor, hm]
  · intro h
    have hm : t.m_is_console = false := h
    constructor <;> simp [Term.ansi_fgcolor, Term.ansi_bgcolor, hm]

/-- Concrete witness for C5: the 24-bit color sequences at (1, 2, 3) on a
console descriptor, and emptiness on a non-console descriptor. -/
theorem ansi_color_spec_witness :
    (Term.mk true).ansi_fgcolor 1 2 3 = "\x1b[38;2;1;2;3m".toList ∧
    (Term.mk true).ansi_bgcolor 1 2 3 = "\x1b[48;2;1;2;3m".toList ∧
    (Term.mk false).ansi_fgcolor 1 2 3 = [] := by
  have h := (ansi_color_spec (Term.mk true) 1 2 3
    (by decide) (by decide) (by decide)).1 rfl
  have h2 := (ansi_color_spec (Term.mk false) 1 2 3
    (by decide) (by decide) (by decide)).2 rfl
  refine ⟨?_, ?_, h2.1⟩
  · rw [h.1]; decide
  · rw [h.2]; decide

/-- C9: on a non-console descriptor, `ansi(c, s)` is exactly `s`, with no
trailing reset bytes: both the style prefix and the trailing reset are the
empty string, so the reset is elided. -/
theorem ansi2_nonconsole_spec (t : Term) (c s : List Char)
    (h : t.is_console = false) : t.ansi2 c s = s := by
  have hm : t.m_is_console = false := h
  simp [Term.ansi2, Term.ansi, hm]

/-- Concrete witness for C9: a non-console descriptor passes the text
through untouched. -/
theorem ansi2_nonconsole_spec_witness :
    (Term.mk false).ansi2 ("bold,red".toList) ("hi".toList) = "hi".toList :=
  ansi2_nonconsole_spec (Term.mk false) ("bold,red".toList) ("hi".toList) rfl

/-- C10: on a console descriptor, `ansi(c, s)` ends with the reset sequence
`ansi("default")` for every command `c` (the reset is appended
unconditionally), and that reset sequence is the non-empty byte string
`ESC [ 0 m`. -/
theorem ansi2_reset_suffix_spec (t : Term) (c s : List Char)
    (h : t.is_console = true) :
    (∃ p, t.ansi2 c s = p ++ t.ansi ("default".toList)) ∧
    t.ansi ("default".toList) = "\x1b[0m".toList := by
  have hm : t.m_is_console = true := h
  constructor
  · exact ⟨t.ansi c ++ s, by simp [Term.ansi2]⟩
  · have hd : t.ansi ("default".toList)
        = '\x1b' :: '[' :: (List.intercalate [';'] (selectCodes ("default".toList)) ++ ['m']) := by
      simp [Term.ansi, hm]
    rw [hd]
    decide

/-- Concrete witness for C10: even with an empty command, the console output
of `ansi("", "hi")` ends with the reset sequence `ESC [ 0 m`. -/
theorem ansi2_reset_suffix_spec_witness :
    (∃ p, (Term.mk true).ansi2 [] ("hi".toList)
      = p ++ (Term.mk true).ansi ("default".toList)) ∧
    (Term.mk true).ansi ("default".toList) = "\x1b[0m".toList :=
  ansi2_reset_suffix_spec (Term.mk true) [] ("hi".toList) rfl

end Sysutil
